import Mathlib

/-!
Shallow embedding of the torcx apply pipeline (`internal/torcx/perform.go`)
and of the remote URL templating engine, for checking specification claims
against the code.

Modelling conventions:
* Pure Go functions become Lean functions over the same data.
* Syscalls and external collaborators (store cache, profile merge, asset
  propagation, tar/gzip/loop-device primitives) are driven by an explicit
  `Env` of outcome oracles; every attempted filesystem mutation or
  privileged call is recorded in a trace of `Eff` events, so "no mutation
  happened" is the absence of events in the trace.
* Go `*ApplyConfig` pointers become `Option ApplyConfig` (`nil` = `none`).
* Go `error` values become the inductive `TorcxErr`;
  `errors.Wrap(err, msg)` becomes `TorcxErr.wrap msg err` and
  sentinel errors become dedicated constructors compared by identity.
* `bufio.Scanner` input streams are modelled as the list of scanned lines
  (without terminators); scanner I/O failures are out of scope of the
  claims treated here.
-/

deriving instance DecidableEq for Except

namespace Torcx

/-- An image reference inside a profile: logical addon name, pinned
reference (version) and the remote to fetch it from if absent locally. -/
structure Image where
  Name : String
  Reference : String
  Remote : String
  deriving DecidableEq

/-- A resolved archive backing an image: filesystem path plus format tag.
The format is a string tag in the Go code (a `switch` with a `default`
branch accepts arbitrary values). -/
structure Archive where
  Filepath : String
  Format : String
  deriving DecidableEq

/-- Modelled from the spec: the archive format tag for gzipped tarballs
(`ArchiveFormatTgz`; the constant's declaration is outside the available
source, only its use in the `switch` of `applyImages` is visible). -/
def ArchiveFormatTgz : String := "tgz"

/-- Modelled from the spec: the archive format tag for squashfs images
(`ArchiveFormatSquashfs`; declaration outside the available source). -/
def ArchiveFormatSquashfs : String := "squashfs"

/-- Errors of the pipeline.  Each `errors.New` sentinel of the Go code is a
constructor, `errors.Wrap`/`errors.Wrapf` is `wrap`, the aggregate error
`fmt.Errorf("failed to install %d images", n)` is `failedInstall n`
(it carries only the count), and `ext` stands for opaque errors produced
by external collaborators and injected through the environment. -/
inductive TorcxErr where
  | missingApplyConfig
  | missingUnpackSource
  | unknownOSVersionID
  | unrecognizedFormat (archive : Archive)
  | failedInstall (count : Nat)
  | wrap (msg : String) (err : TorcxErr)
  | ext (msg : String)
  deriving DecidableEq

/-- `ErrUnknownOSVersionID`, the sentinel returned on os-release streams
with no usable `VERSION_ID` (perform.go line 37). -/
def ErrUnknownOSVersionID : TorcxErr := TorcxErr.unknownOSVersionID

/-- Split a character list at the first occurrence of `sep`:
`none` when `sep` does not occur, otherwise the parts before and after it.
This is `strings.SplitN(line, sep, 2)` restricted to a one-character
separator (the only use in the code is `"="`). -/
def splitFirst (sep : Char) : List Char → Option (List Char × List Char)
  | [] => none
  | c :: rest =>
    if c = sep then some ([], rest)
    else
      match splitFirst sep rest with
      | none => none
      | some (a, b) => some (c :: a, b)

/-- The key/value split of one os-release line:
`strings.SplitN(line, "=", 2)`; `none` when the line has no `=`
(Go's length-1 result), otherwise the key and the verbatim remainder. -/
def lineKV (line : String) : Option (String × String) :=
  match splitFirst '=' line.toList with
  | none => none
  | some (k, v) => some (String.mk k, String.mk v)

/-- The scanning loop of `parseOsVersionID` (perform.go lines 390-404):
skip blank lines, skip lines without `=`, stop at the first line whose key
is `VERSION_ID` and keep its raw value.  Returns `""` when no such line is
found (the loop variable `ver` keeps its zero value). -/
def findVersionID : List String → String
  | [] => ""
  | line :: rest =>
    if line = "" then findVersionID rest
    else
      match lineKV line with
      | none => findVersionID rest
      | some (k, v) => if k = "VERSION_ID" then v else findVersionID rest

/-- `parseOsVersionID` (perform.go lines 387-412) over an already-scanned
list of lines: the raw value of the first `VERSION_ID=` line, or
`ErrUnknownOSVersionID` when that value is absent or empty. -/
def parseOsVersionID (lines : List String) : Except TorcxErr String :=
  let ver := findVersionID lines
  if ver = "" then .error ErrUnknownOSVersionID else .ok ver

/-- A line that the scanning loop stops at: non-blank, has a `=`, and its
key is `VERSION_ID`. -/
def isVersionLine (line : String) : Bool :=
  if line = "" then false
  else
    match lineKV line with
    | none => false
    | some (k, _) => k == "VERSION_ID"

/-- A line the scanning loop skips outright: blank, or without a `=`. -/
def skippedLine (line : String) : Bool :=
  (line == "") || (lineKV line).isNone

/-! ## Remote URL templating (`internal/torcx/remote.go`)

`remote.go` itself is not among the available sources; only its test
(`remote_test.go`) is.  The definitions below are therefore modelled from
the spec (sections 4.2 and 8) and checked for consistency against the
expectations encoded in `TestBasicEvaluateURL` /
`TestEvaluateURLTemplating`. -/

/-- The sentinel errors of the remote resolver, compared by identity in
the test (`err != errNilRemote` and so on). -/
inductive RemoteErr where
  | nilRemote
  | emptyUsrMountpoint
  | emptyTemplateURL
  deriving DecidableEq

/-- A remote: a URL template containing `$\x7bVAR\x7d` placeholders. -/
structure Remote where
  TemplateURL : String
  deriving DecidableEq

/-- Modelled from the spec: optional surrounding quotes on an os-release
value are stripped when sourcing remote-template variables. -/
def stripQuotes (s : String) : String :=
  if s.length ≥ 2 && s.startsWith "\"" && s.endsWith "\"" then
    (s.drop 1).dropRight 1
  else s

/-- Modelled from the spec: the key=value facts read from an os-release
stream for templating; blank lines and lines without `=` are skipped and
values are unquoted. -/
def osReleaseFacts (lines : List String) : List (String × String) :=
  lines.filterMap fun l =>
    if l = "" then none
    else
      match lineKV l with
      | none => none
      | some (k, v) => some (k, stripQuotes v)

/-- First-match lookup in a fact table. -/
def lookupFact : List (String × String) → String → Option String
  | [], _ => none
  | (k, v) :: rest, key => if k = key then some v else lookupFact rest key

/-- Modelled from the spec: alias-aware variable resolution.  The two
mountpoint spellings (`COREOS_USR`, `FLATCAR_USR`) are synthetic variables
bound to the literal mountpoint; the legacy board key and its renamed
successor (`COREOS_BOARD`, `FLATCAR_BOARD`) resolve to the same underlying
fact; every other name is looked up verbatim in the os-release facts. -/
def resolveVar (facts : List (String × String)) (mountpoint name : String) :
    Option String :=
  if name = "COREOS_USR" ∨ name = "FLATCAR_USR" then some mountpoint
  else if name = "COREOS_BOARD" ∨ name = "FLATCAR_BOARD" then
    match lookupFact facts "COREOS_BOARD" with
    | some v => some v
    | none => lookupFact facts "FLATCAR_BOARD"
  else lookupFact facts name

/-- Modelled from the spec: substitution of one chunk following a `$\x7b`
opener.  A recognized name is replaced by its value, an unrecognized name
is left verbatim, an unterminated opener is left verbatim. -/
def substChunk (facts : List (String × String)) (mountpoint chunk : String) :
    String :=
  match splitFirst (Char.ofNat 125) chunk.toList with
  | none => "$\x7b" ++ chunk
  | some (name, rest) =>
    match resolveVar facts mountpoint (String.mk name) with
    | some v => v ++ String.mk rest
    | none => "$\x7b" ++ String.mk name ++ "\x7d" ++ String.mk rest

/-- Modelled from the spec: scan the template for `$\x7bNAME\x7d` tokens
and substitute each through the alias-resolved table, leaving unknown
names verbatim. -/
def substTemplate (facts : List (String × String)) (mountpoint tmpl : String) :
    String :=
  match tmpl.splitOn "$\x7b" with
  | [] => tmpl
  | first :: chunks =>
    first ++ String.join (chunks.map (substChunk facts mountpoint))

/-- Modelled from the spec: `evaluateURL(remote, mountpoint)`.  The
preconditions are checked in this order: nil remote, empty mountpoint,
empty template; then the template is substituted against the os-release
facts of the mountpoint (supplied here as the already-scanned line list)
plus the synthetic mountpoint variables.  The final URL-syntax validation
of the spec is outside the claims treated here and is not modelled. -/
def evaluateURL (r : Option Remote) (usrMountpoint : String)
    (osRelease : List String) : Except RemoteErr String :=
  match r with
  | none => .error .nilRemote
  | some rem =>
    if usrMountpoint = "" then .error .emptyUsrMountpoint
    else if rem.TemplateURL = "" then .error .emptyTemplateURL
    else .ok (substTemplate (osReleaseFacts osRelease) usrMountpoint
                rem.TemplateURL)

/-! ## Apply pipeline (`internal/torcx/perform.go`)

The `ApplyConfig` accessors (`RunProfile`, `RunBinDir`, `RunUnpackDir`,
`UserProfileDir`), the seal constants, the store cache, `mergeProfiles`,
`retrieveAssets` and the `propagate*` functions are declared outside the
available sources; they are modelled from the spec where a definition is
needed and injected through the environment where only their outcome
matters. -/

/-- `filepath.Join` restricted to two cleaned components. -/
def joinPath (a b : String) : String := a ++ "/" ++ b

/-- Go's `%q` formatting of a string: surrounding double quotes, with
inner quotes and backslashes escaped (the escapes for non-printable
characters are not needed by any value treated here). -/
def goQuoteChar (c : Char) : List Char :=
  if c = '"' then ['\\', '"']
  else if c = '\\' then ['\\', '\\']
  else [c]

/-- Go's `%q` string formatting. -/
def goQuote (s : String) : String :=
  "\"" ++ String.mk (s.toList.flatMap goQuoteChar) ++ "\""

/-- Modelled from the spec: the caller-supplied context of one apply run —
base/run/conf directories, store search paths, lower-profile names and the
single upper-profile name (`ApplyConfig`, declared outside the available
sources). -/
structure ApplyConfig where
  BaseDir : String
  RunDir : String
  ConfDir : String
  UpperProfile : String
  LowerProfiles : List String
  StorePaths : List String
  deriving DecidableEq

/-- Modelled from the spec: the derived bin directory under the run
directory. -/
def ApplyConfig.RunBinDir (cfg : ApplyConfig) : String :=
  joinPath cfg.RunDir "bin"

/-- Modelled from the spec: the derived unpack directory under the run
directory. -/
def ApplyConfig.RunUnpackDir (cfg : ApplyConfig) : String :=
  joinPath cfg.RunDir "unpack"

/-- Modelled from the spec: the run-profile path, the fixed run-time
location of the sealed profile. -/
def ApplyConfig.RunProfile (cfg : ApplyConfig) : String :=
  joinPath cfg.RunDir "profile.json"

/-- Modelled from the spec: the user profile directory under the
configuration directory. -/
def ApplyConfig.UserProfileDir (cfg : ApplyConfig) : String :=
  joinPath cfg.ConfDir "profiles"

/-- Mount flags used by the code: `MS_RDONLY` and `MS_REMOUNT`.
A flags argument of `0` is the empty list. -/
inductive MountFlag where
  | rdonly
  | remount
  deriving DecidableEq

/-- The six asset categories propagated out of an unpacked image. -/
inductive AssetCat where
  | bins
  | network
  | units
  | sysusers
  | tmpfiles
  | udev
  deriving DecidableEq

/-- The asset manifest returned by `retrieveAssets`: six lists of paths,
any of which may be empty. -/
structure Assets where
  Binaries : List String
  Network : List String
  Units : List String
  Sysusers : List String
  Tmpfiles : List String
  UdevRules : List String
  deriving DecidableEq

/-- Modelled from the spec: the output schema kind of the sealed run
profile (`ProfileManifestV0K`, declared outside the available sources;
spec section 6 fixes the value). -/
def ProfileManifestV0K : String := "profile-manifest-v0"

/-- Modelled from the spec: the input schema kind of profile manifests
(spec sections 4.4 and 6). -/
def ProfileManifestV1K : String := "profile-manifest-v1"

/-- The JSON manifest written to the run-profile path: a kind tag plus the
image list (`ProfileManifestV0JSON` with `ImagesToJSONV0(images)`). -/
structure ProfileManifestV0JSON where
  Kind : String
  Value : List Image
  deriving DecidableEq

/-- One observable event of the pipeline: an attempted filesystem
mutation, privileged syscall, or call into an external collaborator.
`encodeJSON` records the pretty-printing indent passed to
`enc.SetIndent("", indent)` alongside the encoded manifest. -/
inductive Eff where
  | mkdirAll (path : String) (mode : Nat)
  | create (path : String)
  | write (path : String) (content : String)
  | encodeJSON (path : String) (manifest : ProfileManifestV0JSON) (indent : String)
  | chmod (path : String) (mode : Nat)
  | mount (source target fstype : String) (flags : List MountFlag) (data : String)
  | storeCacheInit (paths : List String)
  | archiveQuery (im : Image)
  | untar (archive : String) (topDir : String)
  | loopAttach (archive : String)
  | assetScan (root : String)
  | propagate (cat : AssetCat) (root : String) (files : List String)
  deriving DecidableEq

/-- Outcome oracles for every syscall and external collaborator the
pipeline touches.  A `none` / `.ok` result means the call succeeds; the
pipeline functions below consult these oracles in exactly the order the
Go code performs the calls. -/
structure Env where
  statNotExist : String → Bool
  mkdirErr : String → Option TorcxErr
  mountErr : String → String → String → List MountFlag → String → Option TorcxErr
  chmodErr : String → Nat → Option TorcxErr
  createErr : String → Option TorcxErr
  writeErr : String → String → Option TorcxErr
  encodeErr : String → Option TorcxErr
  openErr : String → Option TorcxErr
  gzipErr : String → Option TorcxErr
  untarErr : String → String → Option TorcxErr
  attachLoop : String → Except TorcxErr String
  mergeProfilesRes : Except TorcxErr (List Image)
  newStoreCacheRes : Except TorcxErr Unit
  archiveFor : Image → Except TorcxErr Archive
  retrieveAssets : String → Except TorcxErr Assets
  propagateErr : AssetCat → String → List String → Option TorcxErr

/-- The `os.Stat` / `os.MkdirAll(d, 0755)` pattern applied to a list of
directories: a directory reported missing is created, a creation failure
aborts.  (A `Stat` failure that is not `IsNotExist` skips the creation,
exactly as the Go condition does.) -/
def ensureDirs (env : Env) : List String → List Eff × Option TorcxErr
  | [] => ([], none)
  | d :: rest =>
    if env.statNotExist d then
      match env.mkdirErr d with
      | some e => ([Eff.mkdirAll d 0o755], some e)
      | none =>
        match ensureDirs env rest with
        | (tr, r) => (Eff.mkdirAll d 0o755 :: tr, r)
    else ensureDirs env rest

/-- The directory list of `setupPaths` (perform.go lines 267-275), in
order; `RunDir` first, as the canonical executed-this-boot marker. -/
def setupPathsDirs (cfg : ApplyConfig) : List String :=
  [cfg.RunDir, cfg.BaseDir, cfg.ConfDir, cfg.RunBinDir, cfg.RunUnpackDir,
   cfg.UserProfileDir]

/-- `setupPaths` (perform.go lines 262-298): create the scratch directory
layout, mount a tmpfs over the unpack directory (`"/run"` is typically
`noexec`), and chmod it from the tmpfs default to `0755`. -/
def setupPaths (env : Env) (applyCfg : Option ApplyConfig) :
    List Eff × Except TorcxErr Unit :=
  match applyCfg with
  | none => ([], .error .missingApplyConfig)
  | some cfg =>
    match ensureDirs env (setupPathsDirs cfg) with
    | (tr, some e) => (tr, .error e)
    | (tr, none) =>
      let m := Eff.mount "none" cfg.RunUnpackDir "tmpfs" [] "size=450M"
      match env.mountErr "none" cfg.RunUnpackDir "tmpfs" [] "size=450M" with
      | some e => (tr ++ [m], .error (.wrap "failed to mount unpack dir" e))
      | none =>
        match env.chmodErr cfg.RunUnpackDir 0o755 with
        | some e =>
          (tr ++ [m, Eff.chmod cfg.RunUnpackDir 0o755],
           .error (.wrap "failed to chmod unpack dir" e))
        | none =>
          (tr ++ [m, Eff.chmod cfg.RunUnpackDir 0o755], .ok ())

/-- `unpackTgz` (perform.go lines 300-338): render a tgz rootfs under the
unpack directory and return the target top directory.  Open, gzip-reader
construction and the chrooted untar are external primitives driven by the
environment; their error wrapping follows the Go code (`"opening %q"`,
unwrapped gzip error, `"unpacking %q"`). -/
def unpackTgz (env : Env) (applyCfg : Option ApplyConfig)
    (tgzPath imageName : String) : List Eff × Except TorcxErr String :=
  match applyCfg with
  | none => ([], .error .missingApplyConfig)
  | some cfg =>
    if tgzPath = "" ∨ imageName = "" then ([], .error .missingUnpackSource)
    else
      let topDir := joinPath cfg.RunUnpackDir imageName
      match ensureDirs env [topDir] with
      | (tr0, some e) => (tr0, .error e)
      | (tr0, none) =>
        match env.openErr tgzPath with
        | some e => (tr0, .error (.wrap ("opening " ++ goQuote tgzPath) e))
        | none =>
          match env.gzipErr tgzPath with
          | some e => (tr0, .error e)
          | none =>
            match env.untarErr tgzPath topDir with
            | some e =>
              (tr0 ++ [Eff.untar tgzPath topDir],
               .error (.wrap ("unpacking " ++ goQuote tgzPath) e))
            | none => (tr0 ++ [Eff.untar tgzPath topDir], .ok topDir)

/-- `mountSquashfs` (perform.go lines 340-368): attach a loop device to
the archive and mount it read-only at the per-image target directory,
returning the mounted directory.  Loop attach and mount errors are
returned unwrapped, as in the Go code. -/
def mountSquashfs (env : Env) (applyCfg : Option ApplyConfig)
    (archivePath imageName : String) : List Eff × Except TorcxErr String :=
  match applyCfg with
  | none => ([], .error .missingApplyConfig)
  | some cfg =>
    if archivePath = "" ∨ imageName = "" then ([], .error .missingUnpackSource)
    else
      let topDir := joinPath cfg.RunUnpackDir imageName
      match ensureDirs env [topDir] with
      | (tr0, some e) => (tr0, .error e)
      | (tr0, none) =>
        match env.attachLoop archivePath with
        | .error e => (tr0 ++ [Eff.loopAttach archivePath], .error e)
        | .ok loopDev =>
          let m := Eff.mount loopDev topDir "squashfs" [MountFlag.rdonly] ""
          match env.mountErr loopDev topDir "squashfs" [MountFlag.rdonly] "" with
          | some e => (tr0 ++ [Eff.loopAttach archivePath, m], .error e)
          | none => (tr0 ++ [Eff.loopAttach archivePath, m], .ok topDir)

/-- The six guarded propagation blocks of the loop body (perform.go lines
149-202), in source order, paired with the asset list each consumes. -/
def assetSteps (a : Assets) : List (AssetCat × List String) :=
  [(AssetCat.bins, a.Binaries), (AssetCat.network, a.Network),
   (AssetCat.units, a.Units), (AssetCat.sysusers, a.Sysusers),
   (AssetCat.tmpfiles, a.Tmpfiles), (AssetCat.udev, a.UdevRules)]

/-- Run the propagation blocks sequentially: an empty category is skipped,
a propagation failure ends the body with that error (the Go `continue`),
otherwise the next block runs. -/
def propagateAll (env : Env) (root : String) :
    List (AssetCat × List String) → List Eff × Option TorcxErr
  | [] => ([], none)
  | (cat, files) :: rest =>
    if files.length > 0 then
      match env.propagateErr cat root files with
      | some e => ([Eff.propagate cat root files], some e)
      | none =>
        match propagateAll env root rest with
        | (tr, r) => (Eff.propagate cat root files :: tr, r)
    else propagateAll env root rest

/-- One iteration of the per-image loop of `applyImages` (perform.go lines
111-203): resolve the archive, dispatch on its format (`tgz`, `squashfs`,
or the failing `default`), retrieve assets, propagate each non-empty
category.  The result is the body's trace and `some err` exactly when the
iteration hit a failure (the Go body logs and `continue`s at that point). -/
def applyImage1 (env : Env) (cfg : ApplyConfig) (im : Image) :
    List Eff × Option TorcxErr :=
  match env.archiveFor im with
  | .error e => ([Eff.archiveQuery im], some e)
  | .ok archive =>
    match (if archive.Format = ArchiveFormatTgz then
             unpackTgz env (some cfg) archive.Filepath im.Name
           else if archive.Format = ArchiveFormatSquashfs then
             mountSquashfs env (some cfg) archive.Filepath im.Name
           else ([], .error (.unrecognizedFormat archive))) with
    | (tr2, .error e) => (Eff.archiveQuery im :: tr2, some e)
    | (tr2, .ok imageRoot) =>
      match env.retrieveAssets imageRoot with
      | .error e =>
        (Eff.archiveQuery im :: tr2 ++ [Eff.assetScan imageRoot], some e)
      | .ok assets =>
        match propagateAll env imageRoot (assetSteps assets) with
        | (tr3, r3) =>
          (Eff.archiveQuery im :: tr2 ++ [Eff.assetScan imageRoot] ++ tr3, r3)

/-- The whole per-image loop: every image is visited; an image whose body
failed is appended to the failed-images list (in iteration order) and the
loop continues. -/
def applyLoop (env : Env) (cfg : ApplyConfig) :
    List Image → List Eff × List Image
  | [] => ([], [])
  | im :: rest =>
    match applyImage1 env cfg im, applyLoop env cfg rest with
    | (tr1, some _), (tr2, f2) => (tr1 ++ tr2, im :: f2)
    | (tr1, none), (tr2, f2) => (tr1 ++ tr2, f2)

/-- The concatenated per-image traces of a list of images; this is what
the loop's trace equals, witnessing that every image is attempted. -/
def tracesOf (env : Env) (cfg : ApplyConfig) : List Image → List Eff
  | [] => []
  | im :: rest => (applyImage1 env cfg im).1 ++ tracesOf env cfg rest

/-- `applyImages` (perform.go lines 97-210): construct the store cache,
run the failure-tolerant loop, and finish with
`fmt.Errorf("failed to install %d images", len(failedImages))` when the
failed list is non-empty.  The middle component exposes the
`failedImages` list the Go function accumulates. -/
def applyImages (env : Env) (applyCfg : Option ApplyConfig)
    (images : List Image) : List Eff × List Image × Except TorcxErr Unit :=
  match applyCfg with
  | none => ([], [], .error .missingApplyConfig)
  | some cfg =>
    match env.newStoreCacheRes with
    | .error e => ([Eff.storeCacheInit cfg.StorePaths], [], .error e)
    | .ok _ =>
      match applyLoop env cfg images with
      | (tr, failed) =>
        (Eff.storeCacheInit cfg.StorePaths :: tr, failed,
         if failed.length > 0 then .error (.failedInstall failed.length)
         else .ok ())

/-- The guarded per-image phase of `ApplyProfile` (perform.go lines
62-66): `applyImages` runs only when the merged image list is non-empty,
and only its error propagates (the failed-image list is internal). -/
def imagePhase (env : Env) (cfg : ApplyConfig) (images : List Image) :
    List Eff × Except TorcxErr Unit :=
  if images.length > 0 then
    match applyImages env (some cfg) images with
    | (t, _failed, r) => (t, r)
  else ([], .ok ())

/-- `ApplyProfile` (perform.go lines 40-95): nil-configuration check, path
setup (wrapped `"profile setup"`), profile merge, the per-image phase
(skipped entirely when the merged list is empty, and aborting the pipeline
when it returns an error), then the final write of the merged profile as a
pretty-indented `profile-manifest-v0` JSON manifest to the run-profile
path, chmodded to `0444`. -/
def ApplyProfile (env : Env) (applyCfg : Option ApplyConfig) :
    List Eff × Except TorcxErr Unit :=
  match applyCfg with
  | none => ([], .error .missingApplyConfig)
  | some cfg =>
    match setupPaths env (some cfg) with
    | (tr1, .error e) => (tr1, .error (.wrap "profile setup" e))
    | (tr1, .ok _) =>
      match env.mergeProfilesRes with
      | .error e => (tr1, .error e)
      | .ok images =>
        match imagePhase env cfg images with
        | (tr2, .error e) => (tr1 ++ tr2, .error e)
        | (tr2, .ok _) =>
          let rp := cfg.RunProfile
          let manifest : ProfileManifestV0JSON :=
            { Kind := ProfileManifestV0K, Value := images }
          match env.createErr rp with
          | some e => (tr1 ++ tr2 ++ [Eff.create rp], .error e)
          | none =>
            match env.encodeErr rp with
            | some e =>
              (tr1 ++ tr2 ++ [Eff.create rp, Eff.encodeJSON rp manifest "  "],
               .error (.wrap ("writing " ++ goQuote rp) e))
            | none =>
              match env.chmodErr rp 0o444 with
              | some e =>
                (tr1 ++ tr2 ++ [Eff.create rp, Eff.encodeJSON rp manifest "  ",
                                Eff.chmod rp 0o444],
                 .error e)
              | none =>
                (tr1 ++ tr2 ++ [Eff.create rp, Eff.encodeJSON rp manifest "  ",
                                Eff.chmod rp 0o444],
                 .ok ())

/-- Modelled from the spec: the fixed path of the seal record (`SealPath`,
declared outside the available sources; only "written to a fixed path" is
specified, the value is immaterial to the claims). -/
def SealPath : String := "/run/metadata/torcx"

/-- Modelled from the spec: seal record key for the colon-joined
lower-profile list. -/
def SealLowerProfiles : String := "TORCX_LOWER_PROFILES"

/-- Modelled from the spec: seal record key for the upper profile name. -/
def SealUpperProfile : String := "TORCX_UPPER_PROFILE"

/-- Modelled from the spec: seal record key for the sealed run-profile
path. -/
def SealRunProfilePath : String := "TORCX_PROFILE_PATH"

/-- Modelled from the spec: seal record key for the bin directory. -/
def SealBindir : String := "TORCX_BINDIR"

/-- Modelled from the spec: seal record key for the unpack directory. -/
def SealUnpackdir : String := "TORCX_UNPACKDIR"

/-- `filepath.Dir` for the cleaned absolute paths used here: everything
before the last slash. -/
def dirOf (p : String) : String :=
  let parts := p.splitOn "/"
  if parts.length ≤ 1 then "." else String.intercalate "/" parts.dropLast

/-- The five seal record lines (perform.go lines 232-238), in source
order, each `KEY=%q`-formatted. -/
def sealLines (cfg : ApplyConfig) : List String :=
  [SealLowerProfiles ++ "=" ++ goQuote (String.intercalate ":" cfg.LowerProfiles),
   SealUpperProfile ++ "=" ++ goQuote cfg.UpperProfile,
   SealRunProfilePath ++ "=" ++ goQuote cfg.RunProfile,
   SealBindir ++ "=" ++ goQuote cfg.RunBinDir,
   SealUnpackdir ++ "=" ++ goQuote cfg.RunUnpackDir]

/-- The write loop over the seal lines (perform.go lines 240-245): each
line is written with a trailing newline; a failure is wrapped as
`"writing seal content"` and aborts. -/
def writeLines (env : Env) (path : String) :
    List String → List Eff × Option TorcxErr
  | [] => ([], none)
  | line :: rest =>
    match env.writeErr path (line ++ "\n") with
    | some e =>
      ([Eff.write path (line ++ "\n")], some (.wrap "writing seal content" e))
    | none =>
      match writeLines env path rest with
      | (tr, r) => (Eff.write path (line ++ "\n") :: tr, r)

/-- `SealSystemState` (perform.go lines 212-260): ensure the seal file's
parent directory, create the seal file, write the five record lines, then
remount the unpack directory onto itself with
`MS_REMOUNT|MS_RDONLY` — a remount failure is wrapped as
`"failed to remount read-only"`. -/
def SealSystemState (env : Env) (applyCfg : Option ApplyConfig) :
    List Eff × Except TorcxErr Unit :=
  match applyCfg with
  | none => ([], .error .missingApplyConfig)
  | some cfg =>
    match ensureDirs env [dirOf SealPath] with
    | (tr0, some e) => (tr0, .error e)
    | (tr0, none) =>
      match env.createErr SealPath with
      | some e => (tr0 ++ [Eff.create SealPath], .error e)
      | none =>
        match writeLines env SealPath (sealLines cfg) with
        | (tr1, some e) => (tr0 ++ [Eff.create SealPath] ++ tr1, .error e)
        | (tr1, none) =>
          let m := Eff.mount cfg.RunUnpackDir cfg.RunUnpackDir ""
                     [MountFlag.remount, MountFlag.rdonly] ""
          match env.mountErr cfg.RunUnpackDir cfg.RunUnpackDir ""
                  [MountFlag.remount, MountFlag.rdonly] "" with
          | some e =>
            (tr0 ++ [Eff.create SealPath] ++ tr1 ++ [m],
             .error (.wrap "failed to remount read-only" e))
          | none => (tr0 ++ [Eff.create SealPath] ++ tr1 ++ [m], .ok ())

/-- Recognizer for file-creation events (`os.Create`): used to state that
a run never opened the run-profile file for writing. -/
def isFileCreate : Eff → Bool
  | .create _ => true
  | _ => false

/-- Recognizer for the events of the per-image phase: store cache
construction, archive resolution, unpack/mount primitives, asset scans
and propagation. -/
def isImagePhase : Eff → Bool
  | .storeCacheInit _ => true
  | .archiveQuery _ => true
  | .untar _ _ => true
  | .loopAttach _ => true
  | .assetScan _ => true
  | .propagate _ _ _ => true
  | _ => false

/-! ## Concrete data for witnesses and counterexamples -/

/-- A concrete apply configuration used by the witnesses below. -/
def cfg0 : ApplyConfig :=
  { BaseDir := "/var/lib/torcx"
    RunDir := "/run/torcx"
    ConfDir := "/etc/torcx"
    UpperProfile := "vendor"
    LowerProfiles := ["base"]
    StorePaths := ["/usr/share/torcx/store"] }

/-- A concrete image. -/
def imA : Image := { Name := "addon-a", Reference := "1", Remote := "" }

/-- A concrete image. -/
def imB : Image := { Name := "addon-b", Reference := "1", Remote := "" }

/-- A concrete image. -/
def imC : Image := { Name := "addon-c", Reference := "1", Remote := "" }

/-- The tgz archive a witness store resolves an image to. -/
def archOf (im : Image) : Archive :=
  { Filepath := "/store/" ++ im.Name ++ ".torcx.tgz"
    Format := ArchiveFormatTgz }

/-- A fully succeeding environment: every syscall works and every
external collaborator returns a benign result.  The witness environments
below are field updates of this one. -/
def envAllOk : Env :=
  { statNotExist := fun _ => false
    mkdirErr := fun _ => none
    mountErr := fun _ _ _ _ _ => none
    chmodErr := fun _ _ => none
    createErr := fun _ => none
    writeErr := fun _ _ => none
    encodeErr := fun _ => none
    openErr := fun _ => none
    gzipErr := fun _ => none
    untarErr := fun _ _ => none
    attachLoop := fun _ => .ok "/dev/loop0"
    mergeProfilesRes := .ok []
    newStoreCacheRes := .ok ()
    archiveFor := fun im => .ok (archOf im)
    retrieveAssets := fun _ => .ok
      { Binaries := ["bin/tool"], Network := [], Units := []
        Sysusers := [], Tmpfiles := [], UdevRules := [] }
    propagateErr := fun _ _ _ => none }

/-- Environment whose store holds no archive for `imA` while the merged
profile is `[imA, imB]`: exactly one of two images fails. -/
def envOneFailure : Env :=
  { envAllOk with
    mergeProfilesRes := .ok [imA, imB]
    archiveFor := fun im =>
      if im.Name = "addon-a" then .error (.ext "archive not found")
      else .ok (archOf im) }

/-- Environment where the extraction (untar) of `imB` — the middle image
of `[imA, imB, imC]` — fails while everything else succeeds. -/
def envMidExtractFailure : Env :=
  { envAllOk with
    mergeProfilesRes := .ok [imA, imB, imC]
    untarErr := fun p _ =>
      if p = (archOf imB).Filepath then some (.ext "short gzip stream")
      else none }

/-- Environment where `imB` resolves to an archive of unrecognized
format `"raw"`. -/
def envBadFormat : Env :=
  { envAllOk with
    archiveFor := fun im =>
      if im.Name = "addon-b" then
        .ok { Filepath := "/store/addon-b.img", Format := "raw" }
      else .ok (archOf im) }

/-- Environment whose merged profile is the single succeeding `imA`. -/
def envOneImage : Env := { envAllOk with mergeProfilesRes := .ok [imA] }

/-! ## Lemmas about the os-release parser -/

theorem toList_append (a b : String) :
    (a ++ b).toList = a.toList ++ b.toList := by
  cases a; cases b; rfl

theorem mk_toList (s : String) : String.mk s.toList = s := by
  cases s; rfl
theorem splitFirst_append_sep (sep : Char) (k v : List Char) (hk : sep ∉ k) :
    splitFirst sep (k ++ sep :: v) = some (k, v) := by
  induction k with
  | nil => simp [splitFirst]
  | cons c rest ih =>
    have hc : ¬ (c = sep) := by
      intro h
      exact hk (by simp [h])
    have hrest : sep ∉ rest := fun h => hk (by simp [h])
    show splitFirst sep (c :: (rest ++ sep :: v)) = some (c :: rest, v)
    unfold splitFirst
    rw [if_neg hc, ih hrest]

theorem lineKV_version (v : String) :
    lineKV ("VERSION_ID=" ++ v) = some ("VERSION_ID", v) := by
  unfold lineKV
  rw [toList_append]
  rw [show ("VERSION_ID=".toList) = "VERSION_ID".toList ++ '=' :: [] from rfl]
  rw [List.append_assoc]
  rw [show (('=' :: []) ++ v.toList) = '=' :: v.toList from rfl]
  rw [splitFirst_append_sep '=' "VERSION_ID".toList v.toList (by decide)]
  show some (String.mk "VERSION_ID".toList, String.mk v.toList) =
    some ("VERSION_ID", v)
  rw [mk_toList, mk_toList]

theorem version_prefix_ne_empty (v : String) : "VERSION_ID=" ++ v ≠ "" := by
  intro h
  have hl := congrArg String.toList h
  rw [toList_append] at hl
  rw [show (("" : String).toList) = [] from rfl] at hl
  have h2 : "VERSION_ID=".toList = ([] : List Char) :=
    (List.append_eq_nil.mp hl).1
  exact absurd h2 (by decide)

theorem findVersionID_cons (l : String) (rest : List String) :
    findVersionID (l :: rest) =
      if l = "" then findVersionID rest
      else
        match lineKV l with
        | none => findVersionID rest
        | some (k, v) => if k = "VERSION_ID" then v else findVersionID rest :=
  rfl

theorem findVersionID_skip (l : String) (rest : List String)
    (h : isVersionLine l = false) :
    findVersionID (l :: rest) = findVersionID rest := by
  by_cases hl : l = ""
  · rw [findVersionID_cons, if_pos hl]
  · rw [findVersionID_cons, if_neg hl]
    unfold isVersionLine at h
    rw [if_neg hl] at h
    cases hkv : lineKV l with
    | none => rfl
    | some kv =>
      obtain ⟨k, v⟩ := kv
      rw [hkv] at h
      have hk : ¬ (k = "VERSION_ID") := by simpa using h
      exact if_neg hk

theorem findVersionID_not_found (lines : List String)
    (h : ∀ l ∈ lines, isVersionLine l = false) : findVersionID lines = "" := by
  induction lines with
  | nil => rfl
  | cons l rest ih =>
    rw [findVersionID_skip l rest (h l (by simp))]
    exact ih fun x hx => h x (by simp [hx])

theorem findVersionID_version_head (v : String) (rest : List String) :
    findVersionID (("VERSION_ID=" ++ v) :: rest) = v := by
  rw [findVersionID_cons, if_neg (version_prefix_ne_empty v), lineKV_version]
  exact if_pos rfl

theorem skipped_not_version (l : String) (h : skippedLine l = true) :
    isVersionLine l = false := by
  have h2 : l = "" ∨ lineKV l = none := by
    simpa [skippedLine, Option.isNone_iff_eq_none] using h
  unfold isVersionLine
  by_cases hl : l = ""
  · rw [if_pos hl]
  · rw [if_neg hl]
    rcases h2 with h1 | h1
    · exact absurd h1 hl
    · rw [h1]

theorem findVersionID_filter (lines : List String) :
    findVersionID (lines.filter fun l => !(skippedLine l)) =
      findVersionID lines := by
  induction lines with
  | nil => rfl
  | cons l rest ih =>
    by_cases hs : skippedLine l = true
    · rw [List.filter_cons_of_neg (by simp [hs])]
      rw [ih, findVersionID_skip l rest (skipped_not_version l hs)]
    · have hsf : skippedLine l = false := by
        revert hs
        cases skippedLine l <;> simp
      rw [List.filter_cons_of_pos (by simp [hsf])]
      have hl : ¬ (l = "") := by
        intro hc
        rw [hc] at hsf
        exact absurd hsf (by decide)
      have hne : lineKV l ≠ none := by
        intro hc
        exact absurd hsf (by simp [skippedLine, hc])
      rcases Option.ne_none_iff_exists'.mp hne with ⟨⟨k, v⟩, hkv⟩
      rw [findVersionID_cons, findVersionID_cons, if_neg hl, if_neg hl, hkv]
      by_cases hk : k = "VERSION_ID"
      · simp [hk]
      · simp [hk, ih]

/-- `parseOsVersionID` unfolded: the scan result, checked for emptiness. -/
theorem parseOsVersionID_eq (lines : List String) :
    parseOsVersionID lines =
      if findVersionID lines = "" then Except.error ErrUnknownOSVersionID
      else Except.ok (findVersionID lines) := rfl

/-! ## Claim theorems: os-release parsing (C3, C4) -/

/-- C3 (counterexample): the claim states that surrounding quotes on the
value are stripped, so that the stream containing the line
`VERSION_ID="1680.2.0"` yields the unquoted string `1680.2.0`.  The code
keeps the raw remainder after the first `=`, so the lookup does not
return the unquoted string. -/
theorem quotes_not_stripped_counterexample :
    parseOsVersionID ["VERSION_ID=\"1680.2.0\""] ≠ Except.ok "1680.2.0" := by
  intro h
  have h0 : parseOsVersionID ["VERSION_ID=\"1680.2.0\""] =
      Except.ok "\"1680.2.0\"" := rfl
  rw [h0] at h
  injection h with h2
  exact absurd h2 (by decide)

/-- C3 (amended): the version lookup returns the value of the first
`VERSION_ID=` line verbatim — surrounding quotes are NOT stripped: on the
stream containing `VERSION_ID="1680.2.0"` it returns the quoted
ten-character value, and in general any non-empty raw value is returned
unchanged. -/
theorem version_value_kept_verbatim :
    parseOsVersionID ["VERSION_ID=\"1680.2.0\""] = Except.ok "\"1680.2.0\""
    ∧ ∀ (v : String) (rest : List String), v ≠ "" →
        parseOsVersionID (("VERSION_ID=" ++ v) :: rest) = Except.ok v := by
  constructor
  · rfl
  · intro v rest hv
    rw [parseOsVersionID_eq, findVersionID_version_head, if_neg hv]

/-- C3 (witness): the amended theorem applied at the claim's own input. -/
theorem version_value_kept_verbatim_witness :
    parseOsVersionID ["VERSION_ID=\"1680.2.0\"", "VERSION_ID=x"] =
      Except.ok "\"1680.2.0\"" :=
  version_value_kept_verbatim.2 "\"1680.2.0\"" ["VERSION_ID=x"] (by decide)

/-- C4: an empty stream errors with the unknown-version sentinel; any
stream without a `VERSION_ID` line errors likewise; blank lines and lines
lacking `=` are ignored (removing them does not change the result of
parsing); and the first `VERSION_ID=` occurrence wins, whatever follows
it. -/
theorem parse_os_version_streams :
    parseOsVersionID [] = Except.error ErrUnknownOSVersionID
    ∧ (∀ lines : List String, (∀ l ∈ lines, isVersionLine l = false) →
        parseOsVersionID lines = Except.error ErrUnknownOSVersionID)
    ∧ (∀ lines : List String,
        parseOsVersionID (lines.filter fun l => !(skippedLine l)) =
          parseOsVersionID lines)
    ∧ (∀ (pre rest : List String) (v : String),
        (∀ l ∈ pre, isVersionLine l = false) → v ≠ "" →
        parseOsVersionID (pre ++ ("VERSION_ID=" ++ v) :: rest) =
          Except.ok v) := by
  refine ⟨rfl, ?_, ?_, ?_⟩
  · intro lines h
    rw [parseOsVersionID_eq, findVersionID_not_found lines h, if_pos rfl]
  · intro lines
    rw [parseOsVersionID_eq, parseOsVersionID_eq, findVersionID_filter]
  · intro pre rest v hpre hv
    have hfind : findVersionID (pre ++ ("VERSION_ID=" ++ v) :: rest) = v := by
      induction pre with
      | nil => exact findVersionID_version_head v rest
      | cons l pr ih =>
        rw [List.cons_append,
          findVersionID_skip l _ (hpre l (by simp))]
        exact ih fun x hx => hpre x (by simp [hx])
    rw [parseOsVersionID_eq, hfind, if_neg hv]

/-- C4 (witness): a stream with a blank line, a separator-less line, an
unrelated key, and a duplicate `VERSION_ID` resolves to the first
occurrence's value. -/
theorem parse_os_version_streams_witness :
    parseOsVersionID ["", "noequals", "ID=flatcar",
      "VERSION_ID=2705.0.0", "VERSION_ID=9"] = Except.ok "2705.0.0" :=
  parse_os_version_streams.2.2.2 ["", "noequals", "ID=flatcar"]
    ["VERSION_ID=9"] "2705.0.0" (by decide) (by decide)

/-! ## Claim theorem: remote resolver preconditions (C9) -/

/-- C9: `evaluateURL` checks its preconditions in a fixed order — a nil
remote wins over everything (even when the mountpoint and template are
empty too), an empty mountpoint is checked before the template (even when
the template is empty as well), and an empty template is reported for a
non-nil remote with a non-empty mountpoint; the three causes are
pairwise-distinct, identity-comparable sentinel values. -/
theorem evaluate_url_preconditions (mp tmpl : String) (osr : List String) :
    evaluateURL none mp osr = Except.error RemoteErr.nilRemote
    ∧ evaluateURL (some { TemplateURL := tmpl }) "" osr =
        Except.error RemoteErr.emptyUsrMountpoint
    ∧ (mp ≠ "" → evaluateURL (some { TemplateURL := "" }) mp osr =
        Except.error RemoteErr.emptyTemplateURL)
    ∧ RemoteErr.nilRemote ≠ RemoteErr.emptyUsrMountpoint
    ∧ RemoteErr.nilRemote ≠ RemoteErr.emptyTemplateURL
    ∧ RemoteErr.emptyUsrMountpoint ≠ RemoteErr.emptyTemplateURL := by
  refine ⟨rfl, rfl, ?_, by decide, by decide, by decide⟩
  intro h
  simp [evaluateURL, h]

/-- C9 (witness): the precondition theorem applied at the mountpoint
`/usr` used by the repository's own test. -/
theorem evaluate_url_preconditions_witness :
    evaluateURL none "/usr" [] = Except.error RemoteErr.nilRemote
    ∧ evaluateURL (some { TemplateURL := "" }) "/usr" [] =
        Except.error RemoteErr.emptyTemplateURL :=
  ⟨(evaluate_url_preconditions "/usr" "" []).1,
   (evaluate_url_preconditions "/usr" "" []).2.2.1 (by decide)⟩

/-! ## Trace-shape lemmas for the pipeline -/

theorem ensureDirs_trace_P (env : Env) (P : Eff → Prop)
    (hmk : ∀ d m, P (Eff.mkdirAll d m)) :
    ∀ ds : List String, ∀ ef ∈ (ensureDirs env ds).1, P ef := by
  intro ds
  induction ds with
  | nil =>
    intro ef hef
    simp [ensureDirs] at hef
  | cons d rest ih =>
    intro ef hef
    unfold ensureDirs at hef
    by_cases hs : env.statNotExist d
    · rw [if_pos hs] at hef
      cases hmkd : env.mkdirErr d with
      | some e =>
        rw [hmkd] at hef
        simp at hef
        subst hef
        exact hmk d 0o755
      | none =>
        rw [hmkd] at hef
        rcases hrest : ensureDirs env rest with ⟨tr, r⟩
        rw [hrest] at hef
        simp at hef
        rcases hef with rfl | hef2
        · exact hmk d 0o755
        · exact ih ef (by rw [hrest]; exact hef2)
    · rw [if_neg hs] at hef
      exact ih ef hef

theorem setupPaths_trace_P (env : Env) (P : Eff → Prop)
    (hmk : ∀ d m, P (Eff.mkdirAll d m))
    (hmt : ∀ s t f fl d, P (Eff.mount s t f fl d))
    (hch : ∀ p m, P (Eff.chmod p m)) :
    ∀ c : Option ApplyConfig, ∀ ef ∈ (setupPaths env c).1, P ef := by
  intro c ef hef
  rcases c with _ | cfg
  · simp [setupPaths] at hef
  · rcases h0 : ensureDirs env (setupPathsDirs cfg) with ⟨tr, r⟩
    have htr : ∀ x ∈ tr, P x := by
      intro x hx
      exact ensureDirs_trace_P env P hmk _ x (by rw [h0]; exact hx)
    rcases r with _ | e0
    · rcases hm : env.mountErr "none" cfg.RunUnpackDir "tmpfs" [] "size=450M"
        with _ | e1
      · rcases hc : env.chmodErr cfg.RunUnpackDir 0o755 with _ | e2
        · simp [setupPaths, h0, hm, hc] at hef
          rcases hef with hef | rfl | rfl
          · exact htr ef hef
          · exact hmt _ _ _ _ _
          · exact hch _ _
        · simp [setupPaths, h0, hm, hc] at hef
          rcases hef with hef | rfl | rfl
          · exact htr ef hef
          · exact hmt _ _ _ _ _
          · exact hch _ _
      · simp [setupPaths, h0, hm] at hef
        rcases hef with hef | rfl
        · exact htr ef hef
        · exact hmt _ _ _ _ _
    · simp [setupPaths, h0] at hef
      exact htr ef hef

theorem unpackTgz_trace_P (env : Env) (P : Eff → Prop)
    (hmk : ∀ d m, P (Eff.mkdirAll d m))
    (hun : ∀ a t, P (Eff.untar a t)) :
    ∀ (c : Option ApplyConfig) (p n : String),
      ∀ ef ∈ (unpackTgz env c p n).1, P ef := by
  intro c p n ef hef
  rcases c with _ | cfg
  · simp [unpackTgz] at hef
  · by_cases hpn : p = "" ∨ n = ""
    · simp [unpackTgz, hpn] at hef
    · rcases h0 : ensureDirs env [joinPath cfg.RunUnpackDir n] with ⟨tr0, r0⟩
      have htr0 : ∀ x ∈ tr0, P x := by
        intro x hx
        exact ensureDirs_trace_P env P hmk _ x (by rw [h0]; exact hx)
      rcases r0 with _ | e0
      · rcases hop : env.openErr p with _ | e1
        · rcases hgz : env.gzipErr p with _ | e2
          · rcases hut : env.untarErr p (joinPath cfg.RunUnpackDir n)
              with _ | e3
            · simp [unpackTgz, hpn, h0, hop, hgz, hut] at hef
              rcases hef with hef | rfl
              · exact htr0 ef hef
              · exact hun _ _
            · simp [unpackTgz, hpn, h0, hop, hgz, hut] at hef
              rcases hef with hef | rfl
              · exact htr0 ef hef
              · exact hun _ _
          · simp [unpackTgz, hpn, h0, hop, hgz] at hef
            exact htr0 ef hef
        · simp [unpackTgz, hpn, h0, hop] at hef
          exact htr0 ef hef
      · simp [unpackTgz, hpn, h0] at hef
        exact htr0 ef hef

theorem mountSquashfs_trace_P (env : Env) (P : Eff → Prop)
    (hmk : ∀ d m, P (Eff.mkdirAll d m))
    (hlp : ∀ a, P (Eff.loopAttach a))
    (hmt : ∀ s t f fl d, P (Eff.mount s t f fl d)) :
    ∀ (c : Option ApplyConfig) (p n : String),
      ∀ ef ∈ (mountSquashfs env c p n).1, P ef := by
  intro c p n ef hef
  rcases c with _ | cfg
  · simp [mountSquashfs] at hef
  · by_cases hpn : p = "" ∨ n = ""
    · simp [mountSquashfs, hpn] at hef
    · rcases h0 : ensureDirs env [joinPath cfg.RunUnpackDir n] with ⟨tr0, r0⟩
      have htr0 : ∀ x ∈ tr0, P x := by
        intro x hx
        exact ensureDirs_trace_P env P hmk _ x (by rw [h0]; exact hx)
      rcases r0 with _ | e0
      · rcases hat : env.attachLoop p with e1 | dev
        · simp [mountSquashfs, hpn, h0, hat] at hef
          rcases hef with hef | rfl
          · exact htr0 ef hef
          · exact hlp _
        · rcases hm : env.mountErr dev (joinPath cfg.RunUnpackDir n)
            "squashfs" [MountFlag.rdonly] "" with _ | e2
          · simp [mountSquashfs, hpn, h0, hat, hm] at hef
            rcases hef with hef | rfl | rfl
            · exact htr0 ef hef
            · exact hlp _
            · exact hmt _ _ _ _ _
          · simp [mountSquashfs, hpn, h0, hat, hm] at hef
            rcases hef with hef | rfl | rfl
            · exact htr0 ef hef
            · exact hlp _
            · exact hmt _ _ _ _ _
      · simp [mountSquashfs, hpn, h0] at hef
        exact htr0 ef hef

theorem propagateAll_trace_P (env : Env) (P : Eff → Prop)
    (hpr : ∀ c r fs, P (Eff.propagate c r fs)) :
    ∀ (root : String) (steps : List (AssetCat × List String)),
      ∀ ef ∈ (propagateAll env root steps).1, P ef := by
  intro root steps
  induction steps with
  | nil =>
    intro ef hef
    simp [propagateAll] at hef
  | cons s rest ih =>
    intro ef hef
    obtain ⟨cat, files⟩ := s
    by_cases hl : files.length > 0
    · unfold propagateAll at hef
      rw [if_pos hl] at hef
      cases hpe : env.propagateErr cat root files with
      | some e =>
        rw [hpe] at hef
        simp at hef
        subst hef
        exact hpr _ _ _
      | none =>
        rw [hpe] at hef
        rcases hrec : propagateAll env root rest with ⟨tr, r⟩
        rw [hrec] at hef
        simp at hef
        rcases hef with rfl | hef2
        · exact hpr _ _ _
        · exact ih ef (by rw [hrec]; exact hef2)
    · unfold propagateAll at hef
      rw [if_neg hl] at hef
      exact ih ef hef

theorem applyImage1_trace_P (env : Env) (cfg : ApplyConfig) (P : Eff → Prop)
    (hq : ∀ i, P (Eff.archiveQuery i))
    (hmk : ∀ d m, P (Eff.mkdirAll d m))
    (hun : ∀ a t, P (Eff.untar a t))
    (hlp : ∀ a, P (Eff.loopAttach a))
    (hmt : ∀ s t f fl d, P (Eff.mount s t f fl d))
    (hsc : ∀ r, P (Eff.assetScan r))
    (hpr : ∀ c r fs, P (Eff.propagate c r fs)) :
    ∀ im : Image, ∀ ef ∈ (applyImage1 env cfg im).1, P ef := by
  intro im ef hef
  unfold applyImage1 at hef
  split at hef
  · simp at hef
    subst hef
    exact hq im
  · rename_i archive ha
    have htr2 : ∀ (tr2 : List Eff) (unp : Except TorcxErr String),
        (if archive.Format = ArchiveFormatTgz then
           unpackTgz env (some cfg) archive.Filepath im.Name
         else if archive.Format = ArchiveFormatSquashfs then
           mountSquashfs env (some cfg) archive.Filepath im.Name
         else ([], .error (.unrecognizedFormat archive))) = (tr2, unp) →
        ∀ x ∈ tr2, P x := by
      intro tr2 unp hu x hx
      by_cases h1 : archive.Format = ArchiveFormatTgz
      · rw [if_pos h1] at hu
        exact unpackTgz_trace_P env P hmk hun _ _ _ x (by rw [hu]; exact hx)
      · rw [if_neg h1] at hu
        by_cases h2 : archive.Format = ArchiveFormatSquashfs
        · rw [if_pos h2] at hu
          exact mountSquashfs_trace_P env P hmk hlp hmt _ _ _ x
            (by rw [hu]; exact hx)
        · rw [if_neg h2] at hu
          have htr2nil : tr2 = [] := by
            have hfst := congrArg Prod.fst hu
            simpa using hfst.symm
          rw [htr2nil] at hx
          simp at hx
    split at hef
    · rename_i tr2 e hu
      simp at hef
      rcases hef with rfl | hef2
      · exact hq im
      · exact htr2 tr2 (Except.error e) hu ef hef2
    · rename_i tr2 imageRoot hu
      split at hef
      · rename_i e
        simp at hef
        rcases hef with rfl | hef2 | rfl
        · exact hq im
        · exact htr2 tr2 (Except.ok imageRoot) hu ef hef2
        · exact hsc _
      · rename_i assets hra
        split at hef
        rename_i tr3 r3 hpa
        simp at hef
        rcases hef with rfl | hef2 | rfl | hef3
        · exact hq im
        · exact htr2 tr2 (Except.ok imageRoot) hu ef hef2
        · exact hsc _
        · exact propagateAll_trace_P env P hpr _ _ ef (by rw [hpa]; exact hef3)

theorem applyLoop_cons (env : Env) (cfg : ApplyConfig) (im : Image)
    (rest : List Image) :
    applyLoop env cfg (im :: rest) =
      match applyImage1 env cfg im, applyLoop env cfg rest with
      | (tr1, some _), (tr2, f2) => (tr1 ++ tr2, im :: f2)
      | (tr1, none), (tr2, f2) => (tr1 ++ tr2, f2) := rfl

theorem applyLoop_trace_eq (env : Env) (cfg : ApplyConfig) :
    ∀ l : List Image, (applyLoop env cfg l).1 = tracesOf env cfg l := by
  intro l
  induction l with
  | nil => rfl
  | cons im rest ih =>
    rw [applyLoop_cons]
    rcases h1 : applyImage1 env cfg im with ⟨tr1, res⟩
    rcases h2 : applyLoop env cfg rest with ⟨tr2, f2⟩
    rw [h2] at ih
    simp at ih
    cases res <;> simp [tracesOf, h1, ih]

theorem applyLoop_failed_none (env : Env) (cfg : ApplyConfig) :
    ∀ l : List Image, (∀ im ∈ l, (applyImage1 env cfg im).2 = none) →
      (applyLoop env cfg l).2 = [] := by
  intro l
  induction l with
  | nil => intro _; rfl
  | cons im rest ih =>
    intro h
    rw [applyLoop_cons]
    rcases h1 : applyImage1 env cfg im with ⟨tr1, res⟩
    rcases h2 : applyLoop env cfg rest with ⟨tr2, f2⟩
    have hres : res = none := by
      have hx := h im (by simp)
      rw [h1] at hx
      exact hx
    subst hres
    have hf2 : f2 = [] := by
      have hx := ih fun x hx2 => h x (by simp [hx2])
      rw [h2] at hx
      exact hx
    subst hf2
    rfl

theorem applyLoop_failed_append (env : Env) (cfg : ApplyConfig) :
    ∀ l1 l2 : List Image,
      (applyLoop env cfg (l1 ++ l2)).2 =
        (applyLoop env cfg l1).2 ++ (applyLoop env cfg l2).2 := by
  intro l1 l2
  induction l1 with
  | nil => simp [applyLoop]
  | cons im rest ih =>
    rw [List.cons_append, applyLoop_cons, applyLoop_cons]
    rcases h1 : applyImage1 env cfg im with ⟨tr1, res⟩
    rcases h2 : applyLoop env cfg (rest ++ l2) with ⟨tr2, f2⟩
    rcases h3 : applyLoop env cfg rest with ⟨tr3, f3⟩
    rw [h2, h3] at ih
    simp at ih
    cases res <;> simp [ih]

theorem applyLoop_single_failure (env : Env) (cfg : ApplyConfig)
    (pre post : List Image) (bad : Image)
    (hok : ∀ im ∈ pre ++ post, (applyImage1 env cfg im).2 = none)
    (hbad : ∃ e, (applyImage1 env cfg bad).2 = some e) :
    (applyLoop env cfg (pre ++ bad :: post)).2 = [bad] := by
  rw [applyLoop_failed_append]
  have hpre : (applyLoop env cfg pre).2 = [] :=
    applyLoop_failed_none env cfg pre
      fun x hx => hok x (List.mem_append_left _ hx)
  have hpost : (applyLoop env cfg post).2 = [] :=
    applyLoop_failed_none env cfg post
      fun x hx => hok x (List.mem_append_right _ hx)
  rw [hpre, applyLoop_cons]
  rcases hbad with ⟨e, he⟩
  rcases h1 : applyImage1 env cfg bad with ⟨tr1, res⟩
  rw [h1] at he
  simp at he
  subst he
  rcases h2 : applyLoop env cfg post with ⟨tr2, f2⟩
  rw [h2] at hpost
  simp at hpost
  subst hpost
  rfl

theorem tracesOf_trace_P (env : Env) (cfg : ApplyConfig) (P : Eff → Prop)
    (hq : ∀ i, P (Eff.archiveQuery i))
    (hmk : ∀ d m, P (Eff.mkdirAll d m))
    (hun : ∀ a t, P (Eff.untar a t))
    (hlp : ∀ a, P (Eff.loopAttach a))
    (hmt : ∀ s t f fl d, P (Eff.mount s t f fl d))
    (hsc : ∀ r, P (Eff.assetScan r))
    (hpr : ∀ c r fs, P (Eff.propagate c r fs)) :
    ∀ l : List Image, ∀ ef ∈ tracesOf env cfg l, P ef := by
  intro l
  induction l with
  | nil =>
    intro ef hef
    simp [tracesOf] at hef
  | cons im rest ih =>
    intro ef hef
    unfold tracesOf at hef
    rcases List.mem_append.mp hef with h | h
    · exact applyImage1_trace_P env cfg P hq hmk hun hlp hmt hsc hpr im ef h
    · exact ih ef h

theorem applyImages_some (env : Env) (cfg : ApplyConfig)
    (images : List Image) :
    applyImages env (some cfg) images =
      match env.newStoreCacheRes with
      | .error e => ([Eff.storeCacheInit cfg.StorePaths], [], .error e)
      | .ok _ =>
        match applyLoop env cfg images with
        | (tr, failed) =>
          (Eff.storeCacheInit cfg.StorePaths :: tr, failed,
           if failed.length > 0 then .error (.failedInstall failed.length)
           else .ok ()) := rfl

theorem applyImages_trace_P (env : Env) (P : Eff → Prop)
    (hst : ∀ ps, P (Eff.storeCacheInit ps))
    (hq : ∀ i, P (Eff.archiveQuery i))
    (hmk : ∀ d m, P (Eff.mkdirAll d m))
    (hun : ∀ a t, P (Eff.untar a t))
    (hlp : ∀ a, P (Eff.loopAttach a))
    (hmt : ∀ s t f fl d, P (Eff.mount s t f fl d))
    (hsc : ∀ r, P (Eff.assetScan r))
    (hpr : ∀ c r fs, P (Eff.propagate c r fs)) :
    ∀ (c : Option ApplyConfig) (images : List Image),
      ∀ ef ∈ (applyImages env c images).1, P ef := by
  intro c images ef hef
  rcases c with _ | cfg
  · simp [applyImages] at hef
  · rw [applyImages_some] at hef
    split at hef
    · simp at hef
      subst hef
      exact hst _
    · split at hef
      rename_i tr failed hl
      simp at hef
      rcases hef with rfl | hef2
      · exact hst _
      · have htr := applyLoop_trace_eq env cfg images
        rw [hl] at htr
        simp at htr
        subst htr
        exact tracesOf_trace_P env cfg P hq hmk hun hlp hmt hsc hpr images ef hef2

theorem setupPaths_no_create (env : Env) (c : Option ApplyConfig) :
    ∀ ef ∈ (setupPaths env c).1, isFileCreate ef = false :=
  setupPaths_trace_P env (fun ef => isFileCreate ef = false)
    (fun _ _ => rfl) (fun _ _ _ _ _ => rfl) (fun _ _ => rfl) c

theorem setupPaths_no_image_phase (env : Env) (c : Option ApplyConfig) :
    ∀ ef ∈ (setupPaths env c).1, isImagePhase ef = false :=
  setupPaths_trace_P env (fun ef => isImagePhase ef = false)
    (fun _ _ => rfl) (fun _ _ _ _ _ => rfl) (fun _ _ => rfl) c

theorem applyImages_no_create (env : Env) (c : Option ApplyConfig)
    (images : List Image) :
    ∀ ef ∈ (applyImages env c images).1, isFileCreate ef = false :=
  applyImages_trace_P env (fun ef => isFileCreate ef = false)
    (fun _ => rfl) (fun _ => rfl) (fun _ _ => rfl) (fun _ _ => rfl)
    (fun _ => rfl) (fun _ _ _ _ _ => rfl) (fun _ => rfl)
    (fun _ _ _ => rfl) c images

theorem applyImage1_unpack_fail (env : Env) (cfg : ApplyConfig)
    (bad : Image) (abad : Archive) (trb : List Eff) (eb : TorcxErr)
    (ha : env.archiveFor bad = .ok abad)
    (hf : abad.Format = ArchiveFormatTgz)
    (hu : unpackTgz env (some cfg) abad.Filepath bad.Name =
      (trb, .error eb)) :
    applyImage1 env cfg bad = (Eff.archiveQuery bad :: trb, some eb) := by
  simp only [applyImage1, ha]
  rw [if_pos hf, hu]

theorem applyImage1_unrecognized (env : Env) (cfg : ApplyConfig)
    (bad : Image) (abad : Archive)
    (ha : env.archiveFor bad = .ok abad)
    (h1 : abad.Format ≠ ArchiveFormatTgz)
    (h2 : abad.Format ≠ ArchiveFormatSquashfs) :
    applyImage1 env cfg bad =
      ([Eff.archiveQuery bad], some (TorcxErr.unrecognizedFormat abad)) := by
  simp only [applyImage1, ha]
  rw [if_neg h1, if_neg h2]

theorem ApplyProfile_some (env : Env) (cfg : ApplyConfig) :
    ApplyProfile env (some cfg) =
      match setupPaths env (some cfg) with
      | (tr1, .error e) => (tr1, .error (.wrap "profile setup" e))
      | (tr1, .ok _) =>
        match env.mergeProfilesRes with
        | .error e => (tr1, .error e)
        | .ok images =>
          match imagePhase env cfg images with
          | (tr2, .error e) => (tr1 ++ tr2, .error e)
          | (tr2, .ok _) =>
            match env.createErr cfg.RunProfile with
            | some e => (tr1 ++ tr2 ++ [Eff.create cfg.RunProfile], .error e)
            | none =>
              match env.encodeErr cfg.RunProfile with
              | some e =>
                (tr1 ++ tr2 ++ [Eff.create cfg.RunProfile,
                  Eff.encodeJSON cfg.RunProfile
                    { Kind := ProfileManifestV0K, Value := images } "  "],
                 .error (.wrap ("writing " ++ goQuote cfg.RunProfile) e))
              | none =>
                match env.chmodErr cfg.RunProfile 0o444 with
                | some e =>
                  (tr1 ++ tr2 ++ [Eff.create cfg.RunProfile,
                    Eff.encodeJSON cfg.RunProfile
                      { Kind := ProfileManifestV0K, Value := images } "  ",
                    Eff.chmod cfg.RunProfile 0o444],
                   .error e)
                | none =>
                  (tr1 ++ tr2 ++ [Eff.create cfg.RunProfile,
                    Eff.encodeJSON cfg.RunProfile
                      { Kind := ProfileManifestV0K, Value := images } "  ",
                    Eff.chmod cfg.RunProfile 0o444],
                   .ok ()) := rfl

theorem SealSystemState_some (env : Env) (cfg : ApplyConfig) :
    SealSystemState env (some cfg) =
      match ensureDirs env [dirOf SealPath] with
      | (tr0, some e) => (tr0, .error e)
      | (tr0, none) =>
        match env.createErr SealPath with
        | some e => (tr0 ++ [Eff.create SealPath], .error e)
        | none =>
          match writeLines env SealPath (sealLines cfg) with
          | (tr1, some e) => (tr0 ++ [Eff.create SealPath] ++ tr1, .error e)
          | (tr1, none) =>
            match env.mountErr cfg.RunUnpackDir cfg.RunUnpackDir ""
                [MountFlag.remount, MountFlag.rdonly] "" with
            | some e =>
              (tr0 ++ [Eff.create SealPath] ++ tr1 ++
                 [Eff.mount cfg.RunUnpackDir cfg.RunUnpackDir ""
                    [MountFlag.remount, MountFlag.rdonly] ""],
               .error (.wrap "failed to remount read-only" e))
            | none =>
              (tr0 ++ [Eff.create SealPath] ++ tr1 ++
                 [Eff.mount cfg.RunUnpackDir cfg.RunUnpackDir ""
                    [MountFlag.remount, MountFlag.rdonly] ""],
               .ok ()) := rfl

theorem writeLines_ok (env : Env) (path : String)
    (h : ∀ c, env.writeErr path c = none) :
    ∀ lines : List String,
      writeLines env path lines =
        (lines.map fun l => Eff.write path (l ++ "\n"), none) := by
  intro lines
  induction lines with
  | nil => rfl
  | cons l rest ih =>
    unfold writeLines
    rw [h (l ++ "\n"), ih]
    rfl

/-! ## Claim theorems: apply pipeline -/

/-- C7: `ApplyProfile` with a nil configuration returns the
missing-configuration error and the effect trace is empty — no directory
creation, mount, file creation, write or chmod was even attempted. -/
theorem apply_profile_nil_config (env : Env) :
    ApplyProfile env none = ([], Except.error TorcxErr.missingApplyConfig) :=
  rfl

/-- C1 (counterexample): with path setup and profile merge succeeding and
one of the two merged images failing archive resolution, `ApplyProfile`
returns the aggregate install error and its trace contains no
file-creation event at all — the merged run profile is never written,
refuting the claim that the run proceeds past the per-image loop to the
final profile write. -/
theorem image_failure_aborts_run_counterexample :
    (ApplyProfile envOneFailure (some cfg0)).2 =
      Except.error (TorcxErr.failedInstall 1)
    ∧ (ApplyProfile envOneFailure (some cfg0)).1.all
        (fun ef => !(isFileCreate ef)) = true :=
  ⟨rfl, rfl⟩

/-- C1 (amended): individual image failures are not fatal inside the
per-image loop itself (every image is attempted; see C2), but the
aggregate error the loop returns is fatal to `ApplyProfile`: when at
least one image fails while configuration, path setup and profile merge
succeed, `ApplyProfile` returns that aggregate error and aborts before
the final step — no run-profile write happens (its trace contains no
file-creation event). -/
theorem apply_profile_aborts_before_profile_write
    (env : Env) (cfg : ApplyConfig) (tr1 tr2 : List Eff)
    (images failed : List Image) (e : TorcxErr)
    (hsetup : setupPaths env (some cfg) = (tr1, Except.ok ()))
    (hmerge : env.mergeProfilesRes = Except.ok images)
    (himgs : 0 < images.length)
    (happly : applyImages env (some cfg) images =
      (tr2, failed, Except.error e)) :
    ApplyProfile env (some cfg) = (tr1 ++ tr2, Except.error e)
    ∧ ∀ ef ∈ tr1 ++ tr2, isFileCreate ef = false := by
  have hphase : imagePhase env cfg images = (tr2, Except.error e) := by
    unfold imagePhase
    rw [if_pos himgs, happly]
  refine ⟨?_, ?_⟩
  · simp only [ApplyProfile_some, hsetup, hmerge, hphase]
  · intro ef hef
    rcases List.mem_append.mp hef with h | h
    · exact setupPaths_no_create env (some cfg) ef (by rw [hsetup]; exact h)
    · exact applyImages_no_create env (some cfg) images ef
        (by rw [happly]; exact h)

/-- C1 (witness): the amended theorem applied to the concrete
one-failure-out-of-two environment. -/
theorem apply_profile_aborts_before_profile_write_witness :
    ApplyProfile envOneFailure (some cfg0) =
      ((setupPaths envOneFailure (some cfg0)).1 ++
        (applyImages envOneFailure (some cfg0) [imA, imB]).1,
       Except.error (TorcxErr.failedInstall 1))
    ∧ ∀ ef ∈ (setupPaths envOneFailure (some cfg0)).1 ++
        (applyImages envOneFailure (some cfg0) [imA, imB]).1,
      isFileCreate ef = false :=
  apply_profile_aborts_before_profile_write envOneFailure cfg0
    (setupPaths envOneFailure (some cfg0)).1
    (applyImages envOneFailure (some cfg0) [imA, imB]).1
    [imA, imB] [imA] (TorcxErr.failedInstall 1)
    rfl rfl (by decide) rfl

/-- C2: for a merged list in which exactly one image — neither first nor
last — fails at extraction while every other image succeeds,
`applyImages` attempts every image (its trace is the concatenation of
every per-image trace, after the store-cache construction), the failed
image is the only entry of the failed-images list, and the returned
aggregate error carries only the failure count 1. -/
theorem apply_images_single_middle_extraction_failure
    (env : Env) (cfg : ApplyConfig) (pre post : List Image) (bad : Image)
    (abad : Archive) (trb : List Eff) (eb : TorcxErr)
    (hcache : env.newStoreCacheRes = Except.ok ())
    (hpre : pre ≠ []) (hpost : post ≠ [])
    (hok : ∀ im ∈ pre ++ post, (applyImage1 env cfg im).2 = none)
    (harch : env.archiveFor bad = Except.ok abad)
    (hfmt : abad.Format = ArchiveFormatTgz)
    (hunpack : unpackTgz env (some cfg) abad.Filepath bad.Name =
      (trb, Except.error eb)) :
    applyImages env (some cfg) (pre ++ bad :: post) =
      (Eff.storeCacheInit cfg.StorePaths ::
         tracesOf env cfg (pre ++ bad :: post),
       [bad], Except.error (TorcxErr.failedInstall 1)) := by
  have hbody := applyImage1_unpack_fail env cfg bad abad trb eb harch hfmt
    hunpack
  have hfailed : (applyLoop env cfg (pre ++ bad :: post)).2 = [bad] :=
    applyLoop_single_failure env cfg pre post bad hok ⟨eb, by rw [hbody]⟩
  have htrace := applyLoop_trace_eq env cfg (pre ++ bad :: post)
  rw [applyImages_some, hcache]
  rcases hl : applyLoop env cfg (pre ++ bad :: post) with ⟨tr, failed⟩
  rw [hl] at hfailed htrace
  simp at hfailed htrace
  subst hfailed
  subst htrace
  simp

/-- C2 (witness): the theorem applied to the concrete environment where
the middle image of three fails inside the untar primitive. -/
theorem apply_images_single_middle_extraction_failure_witness :
    applyImages envMidExtractFailure (some cfg0) [imA, imB, imC] =
      (Eff.storeCacheInit cfg0.StorePaths ::
         tracesOf envMidExtractFailure cfg0 [imA, imB, imC],
       [imB], Except.error (TorcxErr.failedInstall 1)) :=
  apply_images_single_middle_extraction_failure envMidExtractFailure cfg0
    [imA] [imC] imB (archOf imB)
    [Eff.untar (archOf imB).Filepath (joinPath cfg0.RunUnpackDir imB.Name)]
    (TorcxErr.wrap ("unpacking " ++ goQuote (archOf imB).Filepath)
      (TorcxErr.ext "short gzip stream"))
    rfl (by decide) (by decide) (by decide) rfl rfl rfl

/-- C8: an image whose resolved archive has a format other than the two
recognized ones fails with the unrecognized-format error carrying that
archive; placed anywhere in a merged list whose other images succeed, it
is the only failed image, and the loop still attempts every image (the
trace covers the whole list). -/
theorem apply_images_unrecognized_format
    (env : Env) (cfg : ApplyConfig) (pre post : List Image) (bad : Image)
    (abad : Archive)
    (hcache : env.newStoreCacheRes = Except.ok ())
    (hok : ∀ im ∈ pre ++ post, (applyImage1 env cfg im).2 = none)
    (harch : env.archiveFor bad = Except.ok abad)
    (h1 : abad.Format ≠ ArchiveFormatTgz)
    (h2 : abad.Format ≠ ArchiveFormatSquashfs) :
    applyImage1 env cfg bad =
      ([Eff.archiveQuery bad], some (TorcxErr.unrecognizedFormat abad))
    ∧ applyImages env (some cfg) (pre ++ bad :: post) =
      (Eff.storeCacheInit cfg.StorePaths ::
         tracesOf env cfg (pre ++ bad :: post),
       [bad], Except.error (TorcxErr.failedInstall 1)) := by
  have hbody := applyImage1_unrecognized env cfg bad abad harch h1 h2
  refine ⟨hbody, ?_⟩
  have hfailed : (applyLoop env cfg (pre ++ bad :: post)).2 = [bad] :=
    applyLoop_single_failure env cfg pre post bad hok
      ⟨TorcxErr.unrecognizedFormat abad, by rw [hbody]⟩
  have htrace := applyLoop_trace_eq env cfg (pre ++ bad :: post)
  rw [applyImages_some, hcache]
  rcases hl : applyLoop env cfg (pre ++ bad :: post) with ⟨tr, failed⟩
  rw [hl] at hfailed htrace
  simp at hfailed htrace
  subst hfailed
  subst htrace
  simp

/-- C8 (witness): the theorem applied to the environment where `imB`
resolves to a `"raw"`-format archive. -/
theorem apply_images_unrecognized_format_witness :
    applyImage1 envBadFormat cfg0 imB =
      ([Eff.archiveQuery imB],
       some (TorcxErr.unrecognizedFormat
         { Filepath := "/store/addon-b.img", Format := "raw" }))
    ∧ applyImages envBadFormat (some cfg0) [imA, imB, imC] =
      (Eff.storeCacheInit cfg0.StorePaths ::
         tracesOf envBadFormat cfg0 [imA, imB, imC],
       [imB], Except.error (TorcxErr.failedInstall 1)) :=
  apply_images_unrecognized_format envBadFormat cfg0 [imA] [imC] imB
    { Filepath := "/store/addon-b.img", Format := "raw" }
    rfl (by decide) rfl (by decide) (by decide)

/-- C6: whenever `ApplyProfile` reaches its final step (setup, merge and
the per-image phase all succeeded), it creates the run-profile file,
encodes the merged profile into it as pretty-indented JSON (two-space
indent) with kind `profile-manifest-v0`, then chmods it to mode `0444`;
the output kind deliberately differs from the `profile-manifest-v1`
input schema kind. -/
theorem apply_profile_final_write
    (env : Env) (cfg : ApplyConfig) (tr1 tr2 : List Eff)
    (images failed : List Image)
    (hsetup : setupPaths env (some cfg) = (tr1, Except.ok ()))
    (hmerge : env.mergeProfilesRes = Except.ok images)
    (happly : applyImages env (some cfg) images =
      (tr2, failed, Except.ok ()))
    (hcreate : env.createErr cfg.RunProfile = none)
    (hencode : env.encodeErr cfg.RunProfile = none)
    (hchmod : env.chmodErr cfg.RunProfile 0o444 = none) :
    ApplyProfile env (some cfg) =
      (tr1 ++ (if images.length > 0 then tr2 else []) ++
        [Eff.create cfg.RunProfile,
         Eff.encodeJSON cfg.RunProfile
           { Kind := ProfileManifestV0K, Value := images } "  ",
         Eff.chmod cfg.RunProfile 0o444],
       Except.ok ())
    ∧ ProfileManifestV0K = "profile-manifest-v0"
    ∧ ProfileManifestV0K ≠ ProfileManifestV1K := by
  have hphase : imagePhase env cfg images =
      ((if images.length > 0 then tr2 else []), Except.ok ()) := by
    unfold imagePhase
    by_cases h : images.length > 0
    · rw [if_pos h, if_pos h, happly]
    · rw [if_neg h, if_neg h]
  refine ⟨?_, rfl, by decide⟩
  simp only [ApplyProfile_some, hsetup, hmerge, hphase, hcreate, hencode,
    hchmod]

/-- C6 (witness): the theorem applied to the single-image environment. -/
theorem apply_profile_final_write_witness :
    ApplyProfile envOneImage (some cfg0) =
      ((setupPaths envOneImage (some cfg0)).1 ++
        (if ([imA] : List Image).length > 0 then
          (applyImages envOneImage (some cfg0) [imA]).1 else []) ++
        [Eff.create cfg0.RunProfile,
         Eff.encodeJSON cfg0.RunProfile
           { Kind := ProfileManifestV0K, Value := [imA] } "  ",
         Eff.chmod cfg0.RunProfile 0o444],
       Except.ok ())
    ∧ ProfileManifestV0K = "profile-manifest-v0"
    ∧ ProfileManifestV0K ≠ ProfileManifestV1K :=
  apply_profile_final_write envOneImage cfg0
    (setupPaths envOneImage (some cfg0)).1
    (applyImages envOneImage (some cfg0) [imA]).1
    [imA] [] rfl rfl rfl rfl rfl rfl

/-- C10: when the merged profile is empty, the per-image phase is
skipped entirely — the trace contains no store-cache construction nor
any other image-phase event — and `ApplyProfile` still writes the run
profile with kind `profile-manifest-v0` and an empty image list, chmods
it to `0444`, and succeeds. -/
theorem apply_profile_empty_images
    (env : Env) (cfg : ApplyConfig) (tr1 : List Eff)
    (hsetup : setupPaths env (some cfg) = (tr1, Except.ok ()))
    (hmerge : env.mergeProfilesRes = Except.ok [])
    (hcreate : env.createErr cfg.RunProfile = none)
    (hencode : env.encodeErr cfg.RunProfile = none)
    (hchmod : env.chmodErr cfg.RunProfile 0o444 = none) :
    ApplyProfile env (some cfg) =
      (tr1 ++ [Eff.create cfg.RunProfile,
        Eff.encodeJSON cfg.RunProfile
          { Kind := ProfileManifestV0K, Value := [] } "  ",
        Eff.chmod cfg.RunProfile 0o444],
       Except.ok ())
    ∧ ∀ ef ∈ (ApplyProfile env (some cfg)).1, isImagePhase ef = false := by
  have hphase : imagePhase env cfg ([] : List Image) =
      ([], Except.ok ()) := rfl
  have hmain : ApplyProfile env (some cfg) =
      (tr1 ++ [Eff.create cfg.RunProfile,
        Eff.encodeJSON cfg.RunProfile
          { Kind := ProfileManifestV0K, Value := [] } "  ",
        Eff.chmod cfg.RunProfile 0o444],
       Except.ok ()) := by
    simp only [ApplyProfile_some, hsetup, hmerge, hphase, hcreate, hencode,
      hchmod, List.append_nil]
  refine ⟨hmain, ?_⟩
  intro ef hef
  rw [hmain] at hef
  simp only [] at hef
  rcases List.mem_append.mp hef with h | h
  · exact setupPaths_no_image_phase env (some cfg) ef (by rw [hsetup]; exact h)
  · simp at h
    rcases h with rfl | rfl | rfl <;> rfl

/-- C10 (witness): the theorem applied to the all-succeeding environment
whose profile merge yields the empty list. -/
theorem apply_profile_empty_images_witness :
    ApplyProfile envAllOk (some cfg0) =
      ((setupPaths envAllOk (some cfg0)).1 ++
        [Eff.create cfg0.RunProfile,
         Eff.encodeJSON cfg0.RunProfile
           { Kind := ProfileManifestV0K, Value := [] } "  ",
         Eff.chmod cfg0.RunProfile 0o444],
       Except.ok ())
    ∧ ∀ ef ∈ (ApplyProfile envAllOk (some cfg0)).1, isImagePhase ef = false :=
  apply_profile_empty_images envAllOk cfg0
    (setupPaths envAllOk (some cfg0)).1 rfl rfl rfl rfl rfl

/-- C5: `SealSystemState` writes exactly five `KEY="VALUE"` lines, in
this order — lower-profile list joined with `:`, upper profile name,
sealed run-profile path, bin directory, unpack directory — to the seal
file, and afterwards remounts the unpack directory onto itself with the
read-only flag set (`MS_REMOUNT|MS_RDONLY`); a remount failure surfaces
as the wrapped "failed to remount read-only" error. -/
theorem seal_system_state_record
    (env : Env) (cfg : ApplyConfig)
    (hstat : env.statNotExist (dirOf SealPath) = false)
    (hcreate : env.createErr SealPath = none)
    (hwrite : ∀ c, env.writeErr SealPath c = none) :
    SealSystemState env (some cfg) =
      ([Eff.create SealPath,
        Eff.write SealPath (SealLowerProfiles ++ "=" ++
          goQuote (String.intercalate ":" cfg.LowerProfiles) ++ "\n"),
        Eff.write SealPath (SealUpperProfile ++ "=" ++
          goQuote cfg.UpperProfile ++ "\n"),
        Eff.write SealPath (SealRunProfilePath ++ "=" ++
          goQuote cfg.RunProfile ++ "\n"),
        Eff.write SealPath (SealBindir ++ "=" ++
          goQuote cfg.RunBinDir ++ "\n"),
        Eff.write SealPath (SealUnpackdir ++ "=" ++
          goQuote cfg.RunUnpackDir ++ "\n"),
        Eff.mount cfg.RunUnpackDir cfg.RunUnpackDir ""
          [MountFlag.remount, MountFlag.rdonly] ""],
       match env.mountErr cfg.RunUnpackDir cfg.RunUnpackDir ""
           [MountFlag.remount, MountFlag.rdonly] "" with
       | some e =>
         Except.error (TorcxErr.wrap "failed to remount read-only" e)
       | none => Except.ok ()) := by
  have h0 : ensureDirs env [dirOf SealPath] = ([], none) := by
    simp [ensureDirs, hstat]
  rw [SealSystemState_some, h0, hcreate,
    writeLines_ok env SealPath hwrite (sealLines cfg)]
  cases env.mountErr cfg.RunUnpackDir cfg.RunUnpackDir ""
    [MountFlag.remount, MountFlag.rdonly] "" <;>
    simp [sealLines]

/-- C5 (witness): the theorem applied to the all-succeeding environment,
where the remount succeeds and the call returns success. -/
theorem seal_system_state_record_witness :
    SealSystemState envAllOk (some cfg0) =
      ([Eff.create SealPath,
        Eff.write SealPath (SealLowerProfiles ++ "=" ++
          goQuote (String.intercalate ":" cfg0.LowerProfiles) ++ "\n"),
        Eff.write SealPath (SealUpperProfile ++ "=" ++
          goQuote cfg0.UpperProfile ++ "\n"),
        Eff.write SealPath (SealRunProfilePath ++ "=" ++
          goQuote cfg0.RunProfile ++ "\n"),
        Eff.write SealPath (SealBindir ++ "=" ++
          goQuote cfg0.RunBinDir ++ "\n"),
        Eff.write SealPath (SealUnpackdir ++ "=" ++
          goQuote cfg0.RunUnpackDir ++ "\n"),
        Eff.mount cfg0.RunUnpackDir cfg0.RunUnpackDir ""
          [MountFlag.remount, MountFlag.rdonly] ""],
       Except.ok ()) :=
  (seal_system_state_record envAllOk cfg0 rfl rfl fun _ => rfl).trans rfl

end Torcx
